import Mathlib

/-! Verification development for the quantization graph-rewrite engine of
ilit/adaptor/tf_utils/quantize_graph/quantize_graph_base.py.

The data model (nodes, graphs, attribute maps) and every operation the
theorems mention are shallow embeddings of the Python source.  Stateful
methods of QuantizeNodeBase become explicit state passing over a QState
record; fallible code (KeyError, IndexError, explicit ValueError raises)
returns Except String.  Floating point literals of the source are
represented exactly as rationals; numpy tensors become lists of rationals. -/

/-- Data-type tags (tensorflow dtypes restricted to those the engine uses). -/
inductive DType where
  | qint8
  | quint8
  | qint32
  | float32
  | int32
  | invalid
deriving DecidableEq, Repr

/-- Attribute values stored in a node's typed-attribute map. -/
inductive AttrValue where
  | dtype (d : DType)
  | f (x : ℚ)
  | s (v : String)
  | b (v : Bool)
  | i (n : ℤ)
deriving DecidableEq, Repr

/-- A graph node: name, op kind, ordered input references, attribute map
(association list in insertion order, mirroring the protobuf map the source
populates through the set_attr helpers). -/
structure NodeDef where
  name : String
  op : String
  input : List String
  attrs : List (String × AttrValue)
deriving DecidableEq, Repr

/-- A graph is the ordered list of its nodes (GraphDef.node). -/
structure GraphDef where
  node : List NodeDef
deriving DecidableEq, Repr

/-- Association-list lookup keyed by strings: first binding wins.  Models
python dict lookup for the dictionaries the engine builds (their keys are
never inserted twice). -/
def alookup {α : Type} : List (String × α) → String → Option α
  | [], _ => none
  | (k, v) :: rest, key => if k = key then some v else alookup rest key

/-- Attribute lookup on a node (node.attr access for a key that was set). -/
def lookupAttr (n : NodeDef) (key : String) : Option AttrValue :=
  alookup n.attrs key

/-- Strip one leading control marker, as node_name_from_input does. -/
def stripCaret : List Char → List Char
  | '^' :: rest => rest
  | l => l

/-- If the reversed character list starts with one or more digits followed by
a colon, return what follows (the reversed base name); otherwise none.  This
is the trailing output-slot suffix test of the name helpers. -/
def dropPortRev (r : List Char) : Option (List Char) :=
  let ds := r.takeWhile (fun c => c.isDigit)
  if ds.isEmpty then none
  else
    match r.drop ds.length with
    | ':' :: base => some base
    | _ => none

/-- Modelled from the spec: the helper node_name_from_input of the companion
module quantize_graph_common.py (not part of the provided sources) resolves
an input reference to the producing node's name, removing the reserved
control-edge marker and the optional trailing output-slot index. -/
def node_name_from_input (s : String) : String :=
  let l := stripCaret s.data
  match dropPortRev l.reverse with
  | some baseRev => ⟨baseRev.reverse⟩
  | none => ⟨l⟩

/-- Modelled from the spec: the helper ensure_tensor_name_has_port of the
companion module appends the explicit slot 0 to a bare node name, so rewire
maps are keyed by exact output-slot-qualified names. -/
def ensure_tensor_name_has_port (s : String) : String :=
  match dropPortRev s.data.reverse with
  | some _ => s
  | none => ⟨s.data ++ [':', '0']⟩

/-- Modelled from the spec: the memo of quantized inputs is keyed by the
original float tensor identity, that is the producing node plus output slot. -/
def unique_node_name_from_input (s : String) : String :=
  ensure_tensor_name_has_port s

/-- Modelled from the spec: bare node construction helper create_node. -/
def create_node (op name : String) (inputs : List String) : NodeDef :=
  { name := name, op := op, input := inputs, attrs := [] }

/-- Modelled from the spec: the set_attr_dtype helper records a dtype-typed
attribute (insertion order preserved; the engine never sets a key twice). -/
def set_attr_dtype (n : NodeDef) (key : String) (d : DType) : NodeDef :=
  { n with attrs := n.attrs ++ [(key, AttrValue.dtype d)] }

/-- Modelled from the spec: the set_attr_string helper. -/
def set_attr_string (n : NodeDef) (key : String) (v : String) : NodeDef :=
  { n with attrs := n.attrs ++ [(key, AttrValue.s v)] }

/-- Modelled from the spec: the set_attr_bool helper. -/
def set_attr_bool (n : NodeDef) (key : String) (v : Bool) : NodeDef :=
  { n with attrs := n.attrs ++ [(key, AttrValue.b v)] }

/-- Modelled from the spec: the set_attr_float helper.  The source's float
literals (6.0, 1e30) are represented exactly as rationals. -/
def set_attr_float (n : NodeDef) (key : String) (x : ℚ) : NodeDef :=
  { n with attrs := n.attrs ++ [(key, AttrValue.f x)] }

/-- Modelled from the spec: create_constant_node builds a Const node carrying
a dtype attribute and an embedded payload; only the scalar int payloads the
prologue emits are needed here. -/
def create_constant_node (name : String) (value : ℤ) (d : DType) : NodeDef :=
  set_attr_dtype { name := name, op := "Const", input := [], attrs := [("value", AttrValue.i value)] } "dtype" d

/-- Entry of node_name_mapping: the node and its consumer-name list
(the node_details namedtuple; the unused input_node field is dropped). -/
structure NodeInfo where
  node : NodeDef
  output : List String
deriving DecidableEq, Repr

/-- First pass of parse_graph (lines 388-396): index nodes by name in graph
order, a duplicate name is a fatal ValueError. -/
def addNodesPass : List (String × NodeInfo) → List NodeDef → Except String (List (String × NodeInfo))
  | acc, [] => .ok acc
  | acc, n :: ns =>
    if (alookup acc n.name).isSome then .error "Duplicate Node Found when parse_graph"
    else addNodesPass (acc ++ [(n.name, { node := n, output := [] })]) ns

/-- Append a consumer name to the referenced entry's output list; none models
the KeyError raised on a dangling input reference. -/
def appendOutput : List (String × NodeInfo) → String → String → Option (List (String × NodeInfo))
  | [], _, _ => none
  | (k, info) :: rest, key, consumer =>
    if k = key then some ((k, { info with output := info.output ++ [consumer] }) :: rest)
    else (appendOutput rest key consumer).map (fun m => (k, info) :: m)

/-- Second pass of parse_graph (lines 398-401): for every input reference of
every node, append the referencing node's name to the consumer list of the
referenced node. -/
def addOutputsPass (m : List (String × NodeInfo)) (nodes : List NodeDef) : Option (List (String × NodeInfo)) :=
  nodes.foldlM (fun acc n => n.input.foldlM (fun a i => appendOutput a (node_name_from_input i) n.name) acc) m

/-- The parse_graph method (lines 380-401): build node_name_mapping. -/
def parseGraph (g : GraphDef) : Except String (List (String × NodeInfo)) := do
  let m ← addNodesPass [] g.node
  match addOutputsPass m g.node with
  | some m2 => .ok m2
  | none => .error "KeyError"

/-- Modelled after python substring containment (str.find(x) != -1). -/
def listIsPrefixOfC : List Char → List Char → Bool
  | [], _ => true
  | _ :: _, [] => false
  | a :: as, b :: bs => a == b && listIsPrefixOfC as bs

/-- Substring test used through node_type.find(i) != -1. -/
def containsSub (s pat : String) : Bool :=
  go pat.data s.data
where
  go (p : List Char) : List Char → Bool
    | [] => listIsPrefixOfC p []
    | c :: rest => listIsPrefixOfC p (c :: rest) || go p rest

/-- The need_to_check pass-through op set test (lines 204-208). -/
def need_to_check (node_type : String) : Bool :=
  ["ConcatV2", "Conv2D", "DepthwiseConv2D", "QuantizeV2",
   "DepthwiseConv2dNative", "MaxPool", "Requantize", "AvgPool",
   "Pad", "CropAndResize", "Dequantize", "Mean", "MatMul"].any
    (fun i => containsSub node_type i)

/-- The find_relu_node recursion (lines 210-223).  The source recursion has
no cycle guard; the embedding bounds it with fuel, exhaustion is an error. -/
def find_relu_node (mapping : List (String × NodeInfo)) : Nat → NodeDef → Except String Bool
  | 0, _ => .error "recursion limit"
  | fuel + 1, node =>
    if node.op = "Relu" ∨ node.op = "Relu6" ∨ containsSub node.op "AndRelu" then .ok true
    else if (containsSub node.op "QuantizedConv" ∨ containsSub node.op "QuantizedDepthwiseConv"
             ∨ containsSub node.op "QuantizedMatMul") ∧ ¬ containsSub node.op "Relu" then .ok false
    else if need_to_check node.op then
      match node.input with
      | [] => .error "IndexError"
      | i :: _ =>
        match alookup mapping (node_name_from_input i) with
        | none => .error "KeyError"
        | some info => find_relu_node mapping fuel info.node
    else .ok false

/-- The commutativity-safety loop of is_match for an additive consumer
(lines 166-180): scanning all inputs of the Add/AddN node in order, looking
up each input's node (a dangling name is a KeyError), and disqualifying as
soon as some other input placed before the chain tail is not produced by a
Dequantize node. -/
def addOpQuantizableLoop (mapping : List (String × NodeInfo)) (curName : String) (ci : Nat) : Nat → List String → Except String Bool
  | _, [] => .ok true
  | idx, i :: rest =>
    match alookup mapping (node_name_from_input i) with
    | none => .error "KeyError"
    | some info =>
      if i ≠ curName ∧ idx < ci ∧ info.node.op ≠ "Dequantize" then .ok false
      else addOpQuantizableLoop mapping curName ci (idx + 1) rest

/-- The add_op_quantizable computation of is_match: the chain tail's first
position among the additive consumer's inputs (list.index, a ValueError when
absent), then the safety loop. -/
def addOpQuantizable (mapping : List (String × NodeInfo)) (nextNode : NodeDef) (curName : String) : Except String Bool :=
  match nextNode.input.findIdx? (fun s => s == curName) with
  | none => .error "ValueError"
  | some ci => addOpQuantizableLoop mapping curName ci 0 nextNode.input

/-- The while loop of is_match (lines 152-195): extend the chain along the
tail's first consumer while the remaining rule elements match; a tail with no
consumer, a shared output, a failed additive check or an op mismatch ends the
attempt without a match. -/
def tryRule (mapping : List (String × NodeInfo)) : List String → String → List String → Except String (Option (List String))
  | [], _, acc => .ok (some acc.reverse)
  | expected :: rest, cur, acc =>
    match alookup mapping cur with
    | none => .error "KeyError"
    | some info =>
      match info.output with
      | [] => .ok none
      | nxt :: _ =>
        match alookup mapping nxt with
        | none => .error "KeyError"
        | some nInfo =>
          Except.bind
            (if nInfo.node.op = "Add" ∨ nInfo.node.op = "AddN"
             then addOpQuantizable mapping nInfo.node cur else .ok true)
            (fun addq =>
              if addq ∧ ¬ (info.output.length > 1) ∧ nInfo.node.op = expected then
                tryRule mapping rest nxt (nxt :: acc)
              else .ok none)

/-- The inner rule loop of is_match (lines 139-200): rules are tried in
caller order; an empty rule is an IndexError; the first fully consumed rule
wins and is returned with its matched node names. -/
def tryRulesLoop (mapping : List (String × NodeInfo)) (v name : String) : List (List String) → Except String (Option (List String × List String))
  | [] => .ok none
  | r :: rest =>
    match r with
    | [] => .error "IndexError"
    | h :: t =>
      if h ≠ v then tryRulesLoop mapping v name rest
      else do
        let res ← tryRule mapping t name [name]
        match res with
        | some ns => .ok (some (r, ns))
        | none => tryRulesLoop mapping v name rest

/-- The outer node scan of is_match (lines 127-202) over the entries of
node_name_mapping in graph order.  An anchor qualifies if its op heads some
rule and its name equals the designated start node; a convolution-family
anchor with signed-8-bit disabled additionally needs the activation lookback
to find a preceding ReLU. -/
def isMatchScan (fuel : Nat) (mapping : List (String × NodeInfo)) (patterns : List (List String)) (enable_s8 : Bool) (start : String) : List (String × NodeInfo) → Except String (Option (List String × List String))
  | [] => .ok none
  | (name, info) :: rest =>
    if patterns.any (fun r => r.isEmpty) then .error "IndexError"
    else
      let v := info.node.op
      if patterns.any (fun r => r.head? == some v) then
        if info.node.name ≠ start then isMatchScan fuel mapping patterns enable_s8 start rest
        else if (v = "Conv2D" ∨ v = "DepthwiseConv2dNative") ∧ enable_s8 = false then do
          let b ← find_relu_node mapping fuel info.node
          if ¬ (b = true) then isMatchScan fuel mapping patterns enable_s8 start rest
          else do
            let res ← tryRulesLoop mapping v name patterns
            match res with
            | some x => .ok (some x)
            | none => isMatchScan fuel mapping patterns enable_s8 start rest
        else do
          let res ← tryRulesLoop mapping v name patterns
          match res with
          | some x => .ok (some x)
          | none => isMatchScan fuel mapping patterns enable_s8 start rest
      else isMatchScan fuel mapping patterns enable_s8 start rest

/-- The is_match method (lines 118-202). -/
def is_match (fuel : Nat) (mapping : List (String × NodeInfo)) (patterns : List (List String)) (enable_s8 : Bool) (start : String) : Except String (Option (List String × List String)) :=
  isMatchScan fuel mapping patterns enable_s8 start mapping

/-- Convenience pipeline: parse a graph, then run the matcher on its index. -/
def is_match_on_graph (fuel : Nat) (g : GraphDef) (patterns : List (List String)) (enable_s8 : Bool) (start : String) : Except String (Option (List String × List String)) := do
  let m ← parseGraph g
  is_match fuel m patterns enable_s8 start

/-- Mutable synthesis-pass state of a QuantizeNodeBase object: the output
graph under construction, the output-node registry, and the quantized-input
memo. -/
structure QState where
  output_graph : List NodeDef
  output_node_maps : List (String × NodeDef)
  quantized_node_dict : List (String × (String × String × String))
deriving DecidableEq, Repr

/-- The empty per-pass state (fresh output graph, registry and memo). -/
def emptyQState : QState :=
  { output_graph := [], output_node_maps := [], quantized_node_dict := [] }

/-- The add_output_node registry update (lines 225-230): registering a name
twice is a fatal ValueError. -/
def add_output_node (st : QState) (node_name : String) (node : NodeDef) : Except String QState :=
  if (alookup st.output_node_maps node_name).isSome then .error "Duplicate Node Found"
  else .ok { st with output_node_maps := st.output_node_maps ++ [(node_name, node)] }

/-- The add_output_graph_node method (lines 375-378): extend the output graph,
then register the node. -/
def add_output_graph_node (node : NodeDef) (st : QState) : Except String QState :=
  add_output_node { st with output_graph := st.output_graph ++ [node] } node.name node

/-- The eightbitize_input_to_node method (lines 539-598): on a memo hit,
return the memoized quantize/min/max names untouched; otherwise emit the
Reshape, Min, Max and QuantizeV2 nodes, memoize the name triple and return
it. -/
def eightbitize_input_to_node (is_asymmetric : Bool) (nspace original_input_name reshape_dims_name reduction_dims_name : String) (dtype : DType) (st : QState) : Except String ((String × String × String) × QState) :=
  let unique_input_name := unique_node_name_from_input original_input_name
  match alookup st.quantized_node_dict unique_input_name with
  | some t => .ok (t, st)
  | none => do
    let reshape_input_name := nspace ++ "_reshape_" ++ unique_input_name
    let min_input_name := nspace ++ "_min_" ++ unique_input_name
    let max_input_name := nspace ++ "_max_" ++ unique_input_name
    let quantize_input_name := nspace ++ "_quantize_" ++ unique_input_name
    let reshape_input_node := set_attr_dtype
      (create_node "Reshape" reshape_input_name [original_input_name, reshape_dims_name]) "T" DType.float32
    let st ← add_output_graph_node reshape_input_node st
    let min_input_node := set_attr_bool (set_attr_dtype (set_attr_dtype
      (create_node "Min" min_input_name [reshape_input_name, reduction_dims_name])
      "T" DType.float32) "Tidx" DType.int32) "keep_dims" false
    let st ← add_output_graph_node min_input_node st
    let max_input_node := set_attr_bool (set_attr_dtype (set_attr_dtype
      (create_node "Max" max_input_name [reshape_input_name, reduction_dims_name])
      "T" DType.float32) "Tidx" DType.int32) "keep_dims" false
    let st ← add_output_graph_node max_input_node st
    let q0 := set_attr_string (set_attr_dtype
      (create_node "QuantizeV2" quantize_input_name [original_input_name, min_input_name, max_input_name])
      "T" dtype) "mode" (if is_asymmetric then "MIN_FIRST" else "SCALED")
    let quantize_input_node := if is_asymmetric then q0 else set_attr_string q0 "round_mode" "HALF_TO_EVEN"
    let st ← add_output_graph_node quantize_input_node st
    let min_output_name := quantize_input_name ++ ":1"
    let max_output_name := quantize_input_name ++ ":2"
    let t := (quantize_input_name, min_output_name, max_output_name)
    .ok (t, { st with quantized_node_dict := st.quantized_node_dict ++ [(unique_input_name, t)] })

/-- Dtype of an emitted Dequantize node read back from the registry
(dtypes.DType(node.attr["T"].type); reading an unset key yields the invalid
dtype). -/
def attrDtypeD (n : NodeDef) : DType :=
  match lookupAttr n "T" with
  | some (AttrValue.dtype d) => d
  | _ => DType.invalid

/-- The per-input dtype selection of add_eightbit_prologue_nodes (lines
313-334; the intel_cpu_eightbitize flag is set to True in the constructor and
never changed, so its conjunct is vacuous): if the input's producer is in the
output-node registry as a Dequantize, inherit its dtype; otherwise quint8
when the activation lookback on the anchor finds a ReLU; otherwise, still
only for registered producers, quint8 when the anchor op is MatMul; in every
remaining case qint8. -/
def prologueDtype (fuel : Nat) (mapping : List (String × NodeInfo)) (onm : List (String × NodeDef)) (original_node : String) (each_input_name : String) : Except String DType :=
  match alookup mapping original_node with
  | none => .error "KeyError"
  | some anchorInfo =>
    let input_node_name := node_name_from_input each_input_name
    match alookup onm input_node_name with
    | some emitted =>
      if emitted.op = "Dequantize" then .ok (attrDtypeD emitted)
      else do
        let b ← find_relu_node mapping fuel anchorInfo.node
        if b then .ok DType.quint8
        else if anchorInfo.node.op = "MatMul" then .ok DType.quint8
        else .ok DType.qint8
    | none => do
      let b ← find_relu_node mapping fuel anchorInfo.node
      .ok (if b then DType.quint8 else DType.qint8)

/-- The add_common_quantization_nodes helper (lines 355-373): the two shared
dimension constants, with a control edge to the anchor's first input when
that name is non-empty. -/
def add_common_quantization_nodes (nspace control_input_name : String) (st : QState) : Except String ((String × String) × QState) := do
  let reshape_dims_name := nspace ++ "_reshape_dims"
  let reduction_dims_name := nspace ++ "_reduction_dims"
  let rnode := create_constant_node reshape_dims_name (-1) DType.int32
  let rnode := if control_input_name ≠ "" then { rnode with input := rnode.input ++ ["^" ++ control_input_name] } else rnode
  let st ← add_output_graph_node rnode st
  let dnode := create_constant_node reduction_dims_name 0 DType.int32
  let dnode := if control_input_name ≠ "" then { dnode with input := dnode.input ++ ["^" ++ control_input_name] } else dnode
  let st ← add_output_graph_node dnode st
  .ok ((reshape_dims_name, reduction_dims_name), st)

/-- Loop body of add_eightbit_prologue_nodes over the anchor's inputs (lines
306-344): control inputs are skipped, every float input gets its dtype chosen
by prologueDtype and is routed through eightbitize_input_to_node. -/
def prologueInputsLoop (fuel : Nat) (is_asymmetric : Bool) (mapping : List (String × NodeInfo)) (original_node nspace rdn cdn : String) : List String → (List String × List String) → QState → Except String ((List String × List String) × QState)
  | [], acc, st => .ok (acc, st)
  | i :: rest, (inames, mmnames), st =>
    if i.data.head? = some '^' then
      prologueInputsLoop fuel is_asymmetric mapping original_node nspace rdn cdn rest (inames, mmnames) st
    else do
      let dtype ← prologueDtype fuel mapping st.output_node_maps original_node i
      let (t, st) ← eightbitize_input_to_node is_asymmetric nspace i rdn cdn dtype st
      prologueInputsLoop fuel is_asymmetric mapping original_node nspace rdn cdn rest
        (inames ++ [t.1], mmnames ++ [t.2.1, t.2.2]) st

/-- The add_eightbit_prologue_nodes method (lines 301-353). -/
def add_eightbit_prologue_nodes (fuel : Nat) (is_asymmetric : Bool) (mapping : List (String × NodeInfo)) (original_node : String) (st : QState) : Except String (List String × QState) :=
  match alookup mapping original_node with
  | none => .error "KeyError"
  | some anchorInfo =>
    match anchorInfo.node.input with
    | [] => .error "IndexError"
    | i0 :: _ => do
      let nspace := original_node ++ "_eightbit"
      let ((rdn, cdn), st) ← add_common_quantization_nodes nspace (node_name_from_input i0) st
      let ((inames, mmnames), st) ← prologueInputsLoop fuel is_asymmetric mapping original_node nspace rdn cdn anchorInfo.node.input ([], []) st
      let controls := anchorInfo.node.input.filter (fun i => i.data.head? = some '^')
      .ok (inames ++ mmnames ++ controls, st)

/-- The RequantizationRange (or per-channel variant) node built by
add_quantize_down_nodes (lines 505-518): only the per-channel variant
receives a clip_value_max attribute, 6.0 under a fused ReLU6 and 1e30
otherwise; the per-tensor variant gets only its Tinput dtype. -/
def requantRangeNode (per_channel : Bool) (original_name quantized_output_name : String) (is_relu6 : Bool) : NodeDef :=
  let base := create_node
    (if per_channel then "RequantizationRangePerChannel" else "RequantizationRange")
    (original_name ++ "_eightbit_requant_range")
    [quantized_output_name, quantized_output_name ++ ":1", quantized_output_name ++ ":2"]
  if per_channel then
    set_attr_float (set_attr_dtype base "T" DType.qint32) "clip_value_max" (if is_relu6 then 6 else 10 ^ 30)
  else
    set_attr_dtype base "Tinput" DType.qint32

/-- The Requantize (or per-channel variant) node built by
add_quantize_down_nodes (lines 523-535). -/
def requantizeDownNode (per_channel : Bool) (original_name quantized_output_name : String) (requantize_type : DType) : NodeDef :=
  let rr := original_name ++ "_eightbit_requant_range"
  let base := create_node
    (if per_channel then "RequantizePerChannel" else "Requantize")
    (original_name ++ "_eightbit_requantize")
    [quantized_output_name, quantized_output_name ++ ":1", quantized_output_name ++ ":2",
     rr ++ ":0", rr ++ ":1"]
  set_attr_dtype
    (if per_channel then set_attr_dtype base "T" DType.qint32
     else set_attr_dtype base "Tinput" DType.qint32)
    "out_type" requantize_type

/-- The add_quantize_down_nodes method (lines 496-537): emit the range
discovery node and the requantize node, returning the requantize node's
name. -/
def add_quantize_down_nodes (per_channel : Bool) (original_name quantized_output_name : String) (requantize_type : DType) (is_relu6 : Bool) (st : QState) : Except String (String × QState) := do
  let st ← add_output_graph_node (requantRangeNode per_channel original_name quantized_output_name is_relu6) st
  let st ← add_output_graph_node (requantizeDownNode per_channel original_name quantized_output_name requantize_type) st
  .ok (original_name ++ "_eightbit_requantize", st)

/-- Minimum of a nonempty rational list given as head and tail
(np.min over the flattened tensor). -/
def listMinQ (x : ℚ) (xs : List ℚ) : ℚ := xs.foldl min x

/-- Maximum of a nonempty rational list given as head and tail
(np.max over the flattened tensor). -/
def listMaxQ (x : ℚ) (xs : List ℚ) : ℚ := xs.foldl max x

/-- The per-tensor range correction of intel_cpu_quantize_weight_eightbit
(lines 622-634), producing the min and max handed to the quantize kernel: a
positive true minimum is clamped to zero, and a degenerate range (clamped min
equal to max) is widened, by one near zero, doubled if positive, halved if
negative.  The empty tensor is not defined (np.min raises). -/
def perTensorCorrectedRange : List ℚ → Option (ℚ × ℚ)
  | [] => none
  | x :: xs =>
    let min_value := listMinQ x xs
    let max_value := listMaxQ x xs
    let min_value := if min_value > 0 then 0 else min_value
    let max_value :=
      if min_value = max_value then
        if |min_value| < 1 / 1000000 then min_value + 1
        else if min_value > 0 then 2 * min_value
        else min_value / 2
      else max_value
    some (min_value, max_value)

/-- The per-channel weight quantization epsilon (line 610). -/
def weightEpsilon : ℚ := 1 / 10000

/-- Truncation toward zero, the semantics of numpy's astype on the quotient
values the per-channel path produces. -/
def ratTruncToInt (q : ℚ) : ℤ := Int.tdiv q.num q.den

/-- Wrap-around cast to a signed 8-bit integer (astype(np.int8)); the
quotients of the per-channel path stay within the 8-bit range, so this is
truncation there. -/
def int8cast (n : ℤ) : ℤ := (n + 128).emod 256 - 128

/-- The per-channel absolute-value range of one output channel
(np.abs(tensor).max over all axes except the output channel). -/
def channelAbsRange (x : ℚ) (xs : List ℚ) : ℚ :=
  (xs.map (fun v => |v|)).foldl max |x|

/-- The epsilon clamp on one channel range (ranges[ranges < epsilon] =
epsilon, line 617 and line 662). -/
def clampChannelRange (r : ℚ) : ℚ := if r < weightEpsilon then weightEpsilon else r

/-- The per-channel weight quantization of intel_cpu_quantize_weight_eightbit
(the Conv2D/MatMul per-channel branch, lines 612-620, and the
DepthwiseConv2dNative branch, lines 655-672, which differ only in how the
4-D tensor is sliced into output channels).  The tensor is given as the list
of its output-channel slices; each channel yields its quantized values and
its min and max constants.  In the source, max_value aliases the ranges
array, so the epsilon clamp applied to ranges is visible in max_value, and
min_value receives the matching clamp to minus epsilon; the quantized values
divide by the clamped ranges.  An empty channel is not defined (np.max
raises). -/
def perChannelQuantizeWeight : List (List ℚ) → Option (List (List ℤ × ℚ × ℚ))
  | [] => some []
  | ch :: rest =>
    match ch with
    | [] => none
    | x :: xs =>
      let r := clampChannelRange (channelAbsRange x xs)
      match perChannelQuantizeWeight rest with
      | none => none
      | some l =>
        some ((ch.map (fun v => int8cast (ratTruncToInt (v * 127 / r))), -r, r) :: l)

/-- The create_nodes_map method (lines 485-494): index a node list by name,
duplicate names are fatal. -/
def create_nodes_map : List NodeDef → List (String × NodeDef) → Except String (List (String × NodeDef))
  | [], acc => .ok acc
  | n :: ns, acc =>
    if (alookup acc n.name).isSome then .error "Duplicate node names detected."
    else create_nodes_map ns (acc ++ [(n.name, n)])

/-- The per-node candidate inspection of remove_redundant_quantization
(lines 409-474): for a Quantize/QuantizeV2 node, check the Dequantize
producer, the declared dtype, the min/max input kinds and the same-source
trace, and produce the three rewire entries when everything matches; a
mismatch is skipped (empty entry list), a missing index or a dangling lookup
is the corresponding python exception. -/
def redundantEntriesForNode (m : List (String × NodeDef)) (node : NodeDef) : Except String (List (String × String)) :=
  if node.op = "Quantize" ∨ node.op = "QuantizeV2" then
    match node.input with
    | [] => .error "IndexError"
    | i0 :: rest0 =>
      match alookup m (node_name_from_input i0) with
      | none => .error "Input node name not found"
      | some dequantize_node =>
        if dequantize_node.op ≠ "Dequantize" then .ok []
        else if lookupAttr node "T" ≠ lookupAttr dequantize_node "T" then .ok []
        else
          match rest0 with
          | [] => .error "IndexError"
          | i1 :: rest1 =>
            match rest1 with
            | [] => .error "IndexError"
            | i2 :: _ =>
              match alookup m (node_name_from_input i1) with
              | none => .error "KeyError"
              | some min_node =>
                match alookup m (node_name_from_input i2) with
                | none => .error "KeyError"
                | some max_node =>
                  if ¬ ((min_node.op = "Min" ∨ min_node.op = "Dequantize")
                        ∧ (max_node.op = "Max" ∨ max_node.op = "Dequantize")) then .ok []
                  else
                    match min_node.input with
                    | [] => .error "IndexError"
                    | mi0 :: _ =>
                      match max_node.input with
                      | [] => .error "IndexError"
                      | xi0 :: _ =>
                        let min_node_input_name := node_name_from_input mi0
                        let max_node_input_name := node_name_from_input xi0
                        let same : Except String Bool :=
                          if min_node_input_name = max_node_input_name then .ok true
                          else
                            match alookup m min_node_input_name with
                            | none => .error "KeyError"
                            | some first_min_node_input =>
                              if first_min_node_input.op = "Concat" then
                                match first_min_node_input.input.get? 1 with
                                | none => .error "IndexError"
                                | some s1 =>
                                  match alookup m (node_name_from_input s1) with
                                  | none => .error "KeyError"
                                  | some second_min_node =>
                                    if second_min_node.op = "Min" then
                                      match second_min_node.input with
                                      | [] => .error "IndexError"
                                      | h :: _ => .ok (node_name_from_input h = max_node_input_name)
                                    else .ok false
                              else .ok false
                        match same with
                        | .error e => .error e
                        | .ok is_same_input =>
                          if ¬ is_same_input then .ok []
                          else
                            match dequantize_node.input with
                            | d0 :: d1 :: d2 :: _ =>
                              .ok [(ensure_tensor_name_has_port node.name, node_name_from_input d0),
                                   (node.name ++ ":1", d1),
                                   (node.name ++ ":2", d2)]
                            | _ => .error "IndexError"
  else .ok []

/-- The scan phase of remove_redundant_quantization: accumulate the rewire
entries of every node in graph order (the inputs_to_rename dict). -/
def computeInputsToRename (m : List (String × NodeDef)) : List NodeDef → Except String (List (String × String))
  | [] => .ok []
  | n :: ns => do
    let e ← redundantEntriesForNode m n
    let r ← computeInputsToRename m ns
    .ok (e ++ r)

/-- The rewire application to one node (lines 476-481): every input whose
output-slot-qualified name is a recorded key is replaced, in place, by the
recorded replacement. -/
def applyRename (ren : List (String × String)) (n : NodeDef) : NodeDef :=
  { n with input := n.input.map (fun i =>
      match alookup ren (ensure_tensor_name_has_port i) with
      | some v => v
      | none => i) }

/-- The output-emission fold of remove_redundant_quantization: each rewritten
node is appended to the fresh output graph and registered in the output-node
registry (a duplicate name is fatal). -/
def addAllOutput : List (String × NodeDef) → List NodeDef → List NodeDef → Except String (List NodeDef)
  | _, acc, [] => .ok acc
  | maps, acc, n :: ns =>
    if (alookup maps n.name).isSome then .error "Duplicate Node Found"
    else addAllOutput (maps ++ [(n.name, n)]) (acc ++ [n]) ns

/-- The remove_redundant_quantization method (lines 403-483).  The python
loop assigns into node.input of the old graph's node objects and then appends
those same objects to the fresh output graph, so the first component is the
returned output graph and the second component is the state of the input
graph after the pass (its nodes mutated in place).  The initial output-node
registry is a parameter because the method does not reset it. -/
def remove_redundant_quantization (m0 : List (String × NodeDef)) (old_graph : GraphDef) : Except String (GraphDef × GraphDef) := do
  let nodes_map ← create_nodes_map old_graph.node []
  let ren ← computeInputsToRename nodes_map old_graph.node
  let newNodes := old_graph.node.map (applyRename ren)
  let out ← addAllOutput m0 [] newNodes
  .ok (⟨out⟩, ⟨newNodes⟩)

/-- Statement of the claim's same-source trace, following the specification
wording: the min and max inputs trace to the same source either directly
(min's first input name equals max's first input name) or through the one
Concat indirection (min's first input resolves to a Concat whose second
operand is a Min node whose first input equals max's first input). -/
def sameSourceSpec (m : List (String × NodeDef)) (min_node max_node : NodeDef) : Bool :=
  match min_node.input.head?, max_node.input.head? with
  | some mi, some xi =>
    let nm := node_name_from_input mi
    let xm := node_name_from_input xi
    if nm = xm then true
    else
      match alookup m nm with
      | some c =>
        if c.op = "Concat" then
          match c.input.get? 1 with
          | some s1 =>
            match alookup m (node_name_from_input s1) with
            | some m2 =>
              if m2.op = "Min" then
                match m2.input.head? with
                | some h => node_name_from_input h = xm
                | none => false
              else false
            | none => false
          | none => false
        else false
      | none => false
  | _, _ => false

/-- Statement of the amended dtype priority for the prologue, in the
claim's form: inherit from a registered Dequantize producer; else unsigned
8-bit on a ReLU lookback hit; else unsigned 8-bit when the producer is
registered and the anchor op is MatMul; else signed 8-bit. -/
def prologueDtypeAmended (onm : List (String × NodeDef)) (anchor : NodeDef) (relu : Bool) (each_input_name : String) : DType :=
  match alookup onm (node_name_from_input each_input_name) with
  | some emitted =>
    if emitted.op = "Dequantize" then attrDtypeD emitted
    else if relu then DType.quint8
    else if anchor.op = "MatMul" then DType.quint8
    else DType.qint8
  | none => if relu then DType.quint8 else DType.qint8

/-- Concrete graph whose anchor node A (a MaxPool) feeds two distinct
consumers. -/
def c2Graph : GraphDef :=
  ⟨[create_node "MaxPool" "A" [],
    create_node "Relu" "B" ["A"],
    create_node "Relu" "C" ["A"]]⟩

/-- The node index of c2Graph, written out. -/
def c2WitnessMap : List (String × NodeInfo) :=
  [("A", { node := create_node "MaxPool" "A" [], output := ["B", "C"] }),
   ("B", { node := create_node "Relu" "B" ["A"], output := [] }),
   ("C", { node := create_node "Relu" "C" ["A"], output := [] })]

/-- Concrete node index with a MatMul anchor mm whose weight input w is an
ordinary constant of the input graph (hence absent from the output-node
registry) and with no preceding ReLU. -/
def c3Map : List (String × NodeInfo) :=
  [("mm", { node := create_node "MatMul" "mm" ["w"], output := [] }),
   ("w", { node := create_node "Const" "w" [], output := ["mm"] })]

/-- Concrete output-node registry holding an already-emitted Dequantize node
for the input w. -/
def c3Onm : List (String × NodeDef) :=
  [("w", set_attr_dtype (create_node "Dequantize" "w" ["wq", "wmin", "wmax"]) "T" DType.quint8)]

/-- Concrete nodes-map for the eliminator: a QuantizeV2 node q fed by a
Dequantize dq of the same dtype, with Min/Max range inputs tracing directly
to the same source s. -/
def c1Map : List (String × NodeDef) :=
  [("s", create_node "Const" "s" []),
   ("mn", create_node "Min" "mn" ["s"]),
   ("mx", create_node "Max" "mx" ["s"]),
   ("dq", set_attr_dtype (create_node "Dequantize" "dq" ["s", "a", "b"]) "T" DType.qint8),
   ("q", set_attr_dtype (create_node "QuantizeV2" "q" ["dq", "mn", "mx"]) "T" DType.qint8)]

/-- The QuantizeV2 node of c1Map. -/
def c1Node : NodeDef :=
  set_attr_dtype (create_node "QuantizeV2" "q" ["dq", "mn", "mx"]) "T" DType.qint8

/-- Concrete graph containing one redundant Quantize/Dequantize round trip
and one consumer of the Quantize node. -/
def c4Graph : GraphDef :=
  ⟨[create_node "Const" "s" [],
    create_node "Min" "mn" ["s"],
    create_node "Max" "mx" ["s"],
    set_attr_dtype (create_node "Dequantize" "dq" ["s", "mn", "mx"]) "T" DType.qint8,
    set_attr_dtype (create_node "QuantizeV2" "q" ["dq", "mn", "mx"]) "T" DType.qint8,
    create_node "Relu" "c" ["q"]]⟩

/-- A one-node graph on which the eliminator finds nothing to rewire. -/
def trivGraph : GraphDef := ⟨[create_node "Const" "a" []]⟩

/-- Concrete graph with a chained pattern: the Dequantize node dq1 draws its
value from the eliminated Quantize node q2, so the rewire target recorded for
q1 is itself a renamed tensor. -/
def c9Graph : GraphDef :=
  ⟨[create_node "Const" "s2" [],
    create_node "Min" "mn2" ["s2"],
    create_node "Max" "mx2" ["s2"],
    set_attr_dtype (create_node "Dequantize" "dq2" ["s2", "mn2", "mx2"]) "T" DType.qint8,
    set_attr_dtype (create_node "QuantizeV2" "q2" ["dq2", "mn2", "mx2"]) "T" DType.qint8,
    set_attr_dtype (create_node "Dequantize" "dq1" ["q2", "mn2", "mx2"]) "T" DType.qint8,
    set_attr_dtype (create_node "QuantizeV2" "q1" ["dq1", "mn2", "mx2"]) "T" DType.qint8,
    create_node "Relu" "c" ["q1"]]⟩

/-- Result of the first input-quantization call for input x from the empty
state (total by construction; the error branch is unreachable). -/
def c6First : (String × String × String) × QState :=
  match eightbitize_input_to_node false "p" "x" "rd" "rr" DType.quint8 emptyQState with
  | .ok p => p
  | .error _ => (("", "", ""), emptyQState)

/-- A state whose memo already holds an entry for the tensor identity x:0. -/
def c10State : QState :=
  { output_graph := [], output_node_maps := [],
    quantized_node_dict := [("x:0", ("qx", "qx:1", "qx:2"))] }

lemma alookup_append_of_none {α : Type} (l1 l2 : List (String × α)) (k : String)
    (h : alookup l1 k = none) : alookup (l1 ++ l2) k = alookup l2 k := by
  induction l1 with
  | nil => simp
  | cons p rest ih =>
    obtain ⟨k1, v1⟩ := p
    by_cases hk : k1 = k
    · simp [alookup, hk] at h
    · simp only [alookup, List.cons_append, if_neg hk] at h ⊢
      exact ih h

lemma alookup_cons_self {α : Type} (k : String) (v : α) (l : List (String × α)) :
    alookup ((k, v) :: l) k = some v := by
  simp [alookup]

/-- C7: in per-tensor weight quantization, the range correction applied
before the quantize kernel clamps a positive true minimum to zero, leaves a
non-positive minimum unchanged, and when the corrected minimum equals the
maximum widens the range to min + 1 near zero, 2 * min for a positive
minimum and min / 2 for a negative one, leaving a non-degenerate maximum
unchanged.  In particular the tensor with min = max = 0 yields (0, 1). -/
theorem c7_per_tensor_range_correction (x : ℚ) (xs : List ℚ) (a b : ℚ)
    (h : perTensorCorrectedRange (x :: xs) = some (a, b)) :
    (listMinQ x xs > 0 → a = 0) ∧
    (¬ listMinQ x xs > 0 → a = listMinQ x xs) ∧
    (a = listMaxQ x xs →
      (|a| < 1 / 1000000 → b = a + 1) ∧
      (¬ |a| < 1 / 1000000 → a > 0 → b = 2 * a) ∧
      (¬ |a| < 1 / 1000000 → ¬ a > 0 → b = a / 2)) ∧
    (a ≠ listMaxQ x xs → b = listMaxQ x xs) := by
  simp only [perTensorCorrectedRange, Option.some.injEq, Prod.mk.injEq] at h
  obtain ⟨ha, hb⟩ := h
  subst ha
  subst hb
  refine ⟨?_, ?_, ?_, ?_⟩
  · intro hm
    rw [if_pos hm]
  · intro hm
    rw [if_neg hm]
  · intro hdeg
    refine ⟨?_, ?_, ?_⟩
    · intro hz
      rw [if_pos hdeg, if_pos hz]
    · intro hz hp
      rw [if_pos hdeg, if_neg hz, if_pos hp]
    · intro hz hp
      rw [if_pos hdeg, if_neg hz, if_neg hp]
  · intro hdeg
    rw [if_neg hdeg]

/-- Witness for C7 at the concrete tensor with min = max = 0: the corrected
range handed to the quantize kernel is (0, 1). -/
theorem c7_witness :
    perTensorCorrectedRange [(0 : ℚ)] = some (0, 1) ∧ (1 : ℚ) = 0 + 1 := by
  have h : perTensorCorrectedRange [(0 : ℚ)] = some (0, 1) := by
    norm_num [perTensorCorrectedRange, listMinQ, listMaxQ]
  refine ⟨h, ?_⟩
  have hc := (c7_per_tensor_range_correction 0 [] 0 1 h).2.2.1
  exact (hc (by rfl)).1 (by norm_num)

lemma foldl_max_abs_zeros (xs : List ℚ) (h : ∀ v ∈ xs, v = 0) :
    (xs.map (fun v => |v|)).foldl max (0 : ℚ) = 0 := by
  induction xs with
  | nil => rfl
  | cons y ys ih =>
    have hy : y = 0 := h y (by simp)
    simp only [List.map_cons, List.foldl_cons, hy, abs_zero, max_self]
    exact ih (fun v hv => h v (by simp [hv]))

lemma channelAbsRange_zero (x : ℚ) (xs : List ℚ) (hx : x = 0) (hxs : ∀ v ∈ xs, v = 0) :
    channelAbsRange x xs = 0 := by
  unfold channelAbsRange
  rw [hx, abs_zero]
  exact foldl_max_abs_zeros xs hxs

/-- C8: per-channel weight quantization (the Conv2D/MatMul per-channel branch
and the DepthwiseConv2dNative branch) divides each channel by its clamped
range, which is always at least epsilon = 1e-4; the min and max constants
are minus and plus that clamped range, and an all-zero channel yields all
zero (hence finite) quantized values with min/max constants -epsilon and
epsilon. -/
theorem c8_per_channel_weight_quantization (channels : List (List ℚ)) (l : List (List ℤ × ℚ × ℚ))
    (h : perChannelQuantizeWeight channels = some l) :
    l.length = channels.length ∧
    ∀ (i : Nat) (ch : List ℚ) (trip : List ℤ × ℚ × ℚ), channels[i]? = some ch → l[i]? = some trip →
      ∃ x xs, ch = x :: xs ∧
        trip.2.2 = clampChannelRange (channelAbsRange x xs) ∧
        weightEpsilon ≤ trip.2.2 ∧
        trip.2.1 = -trip.2.2 ∧
        trip.1 = ch.map (fun v => int8cast (ratTruncToInt (v * 127 / trip.2.2))) ∧
        ((∀ v ∈ ch, v = 0) → trip = (ch.map (fun _ => (0 : ℤ)), -weightEpsilon, weightEpsilon)) := by
  induction channels generalizing l with
  | nil =>
    simp only [perChannelQuantizeWeight, Option.some.injEq] at h
    subst h
    refine ⟨rfl, ?_⟩
    intro i ch trip hc _
    simp at hc
  | cons ch rest ih =>
    match hch : ch with
    | [] => simp [perChannelQuantizeWeight] at h
    | x :: xs =>
      rw [perChannelQuantizeWeight] at h
      cases hr : perChannelQuantizeWeight rest with
      | none => rw [hr] at h; simp at h
      | some l' =>
        rw [hr] at h
        simp only [Option.some.injEq] at h
        obtain ⟨hlen, hall⟩ := ih l' hr
        subst h
        refine ⟨by simp [hlen], ?_⟩
        intro i ch' trip hc ht
        cases i with
        | zero =>
          simp only [List.getElem?_cons_zero, Option.some.injEq] at hc ht
          subst hc
          subst ht
          refine ⟨x, xs, rfl, rfl, ?_, rfl, rfl, ?_⟩
          · unfold clampChannelRange
            split
            · exact le_refl _
            · exact le_of_not_lt (by assumption)
          · intro hz
            have hx0 : x = 0 := hz x (by simp)
            have hr0 : channelAbsRange x xs = 0 :=
              channelAbsRange_zero x xs hx0 (fun v hv => hz v (by simp [hv]))
            have hclamp : clampChannelRange (channelAbsRange x xs) = weightEpsilon := by
              rw [hr0]
              unfold clampChannelRange
              rw [if_pos (by norm_num [weightEpsilon])]
            rw [hclamp]
            simp only [Prod.mk.injEq, and_true, true_and, and_self]
            refine List.map_congr_left ?_
            intro v hv
            rw [hz v hv]
            have h0 : (0 : ℚ) * 127 / weightEpsilon = 0 := by norm_num
            rw [h0]
            decide
        | succ j =>
          simp only [List.getElem?_cons_succ] at hc ht
          exact hall j ch' trip hc ht

/-- Witness for C8 on the single all-zero channel: the quantized channel is
all zeros and the min/max constants are -epsilon and epsilon. -/
theorem c8_witness :
    perChannelQuantizeWeight [[(0 : ℚ)]] =
      some [([(0 : ℤ)], -weightEpsilon, weightEpsilon)] ∧
    weightEpsilon ≤ weightEpsilon := by
  have h : perChannelQuantizeWeight [[(0 : ℚ)]] =
      some [([(0 : ℤ)], -(1 / 10000 : ℚ), (1 / 10000 : ℚ))] := by
    norm_num [perChannelQuantizeWeight, clampChannelRange, channelAbsRange,
      weightEpsilon, ratTruncToInt, int8cast]
  obtain ⟨x, xs, hch, _, _, _, _, hzero⟩ :=
    (c8_per_channel_weight_quantization [[(0 : ℚ)]]
      [([(0 : ℤ)], -(1 / 10000 : ℚ), (1 / 10000 : ℚ))] h).2 0
      [(0 : ℚ)] ([(0 : ℤ)], -(1 / 10000 : ℚ), (1 / 10000 : ℚ)) (by rfl) (by rfl)
  have hz := hzero (by intro v hv; simpa using hv)
  refine ⟨?_, le_refl _⟩
  rw [h]
  simp only [Option.some.injEq, List.cons.injEq, and_true]
  exact hz.symm ▸ rfl

lemma exceptBindOk {α β : Type} (e : Except String α) (f : α → Except String β) (b : β)
    (h : e >>= f = .ok b) : ∃ a, e = .ok a ∧ f a = .ok b := by
  cases e with
  | error er => simp [Bind.bind, Except.bind] at h
  | ok a => exact ⟨a, rfl, by simpa [Bind.bind, Except.bind] using h⟩

lemma add_output_graph_node_ok (n : NodeDef) (st st2 : QState)
    (h : add_output_graph_node n st = .ok st2) :
    st2 = { output_graph := st.output_graph ++ [n],
            output_node_maps := st.output_node_maps ++ [(n.name, n)],
            quantized_node_dict := st.quantized_node_dict } := by
  unfold add_output_graph_node add_output_node at h
  split at h
  · exact absurd h (by simp)
  · simp only [Except.ok.injEq] at h
    exact h.symm

/-- C10: the quantized-input memo is keyed only by the input's tensor
identity, not by the requested dtype: a call whose input identity is already
memoized returns exactly the memoized quantize/min/max triple and leaves the
state untouched, whatever dtype (and mode, names, or dimension inputs) the
call passes. -/
theorem c10_memo_ignores_dtype (is_asymmetric : Bool) (nspace inp rdn cdn : String)
    (dtype : DType) (st : QState) (t : String × String × String)
    (h : alookup st.quantized_node_dict (unique_node_name_from_input inp) = some t) :
    eightbitize_input_to_node is_asymmetric nspace inp rdn cdn dtype st = .ok (t, st) := by
  simp only [eightbitize_input_to_node, h]

/-- Witness for C10: a state whose memo holds x:0 returns the memoized triple
for the same tensor under two different dtype arguments, emitting nothing. -/
theorem c10_witness :
    alookup c10State.quantized_node_dict (unique_node_name_from_input "x") =
      some ("qx", "qx:1", "qx:2") ∧
    eightbitize_input_to_node false "p" "x" "rd" "rr" DType.qint8 c10State =
      .ok (("qx", "qx:1", "qx:2"), c10State) ∧
    eightbitize_input_to_node true "p2" "x" "rd2" "rr2" DType.quint8 c10State =
      .ok (("qx", "qx:1", "qx:2"), c10State) := by
  refine ⟨rfl, ?_, ?_⟩
  · exact c10_memo_ignores_dtype false "p" "x" "rd" "rr" DType.qint8 c10State _ rfl
  · exact c10_memo_ignores_dtype true "p2" "x" "rd2" "rr2" DType.quint8 c10State _ rfl

/-- C6: one prologue subgraph per input tensor identity.  After any call of
the input-quantization operation that returned a triple and a state, a later
call for the same tensor identity (whatever its other arguments) emits no new
node and returns exactly that triple with that state unchanged. -/
theorem c6_one_subgraph_per_identity
    (a1 a2 : Bool) (n1 n2 i1 i2 r1 r2 c1 c2 : String) (d1 d2 : DType)
    (st : QState) (p : (String × String × String) × QState)
    (hkey : unique_node_name_from_input i1 = unique_node_name_from_input i2)
    (h : eightbitize_input_to_node a1 n1 i1 r1 c1 d1 st = .ok p) :
    eightbitize_input_to_node a2 n2 i2 r2 c2 d2 p.2 = .ok p := by
  simp only [eightbitize_input_to_node] at h ⊢
  rw [← hkey]
  cases hm : alookup st.quantized_node_dict (unique_node_name_from_input i1) with
  | some t =>
    rw [hm] at h
    simp only [Except.ok.injEq] at h
    subst h
    simp [hm]
  | none =>
    rw [hm] at h
    obtain ⟨st1, h1, h⟩ := exceptBindOk _ _ _ h
    obtain ⟨st2, h2, h⟩ := exceptBindOk _ _ _ h
    obtain ⟨st3, h3, h⟩ := exceptBindOk _ _ _ h
    obtain ⟨st4, h4, h⟩ := exceptBindOk _ _ _ h
    simp only [Except.ok.injEq] at h
    have e1 := add_output_graph_node_ok _ _ _ h1
    have e2 := add_output_graph_node_ok _ _ _ h2
    have e3 := add_output_graph_node_ok _ _ _ h3
    have e4 := add_output_graph_node_ok _ _ _ h4
    have hd4 : st4.quantized_node_dict = st.quantized_node_dict := by
      rw [e4, e3, e2, e1]
    subst h
    have hl : alookup
        (st.quantized_node_dict ++
          [(unique_node_name_from_input i1,
            (n1 ++ "_quantize_" ++ unique_node_name_from_input i1,
             n1 ++ "_quantize_" ++ unique_node_name_from_input i1 ++ ":1",
             n1 ++ "_quantize_" ++ unique_node_name_from_input i1 ++ ":2"))])
        (unique_node_name_from_input i1) =
        some (n1 ++ "_quantize_" ++ unique_node_name_from_input i1,
              n1 ++ "_quantize_" ++ unique_node_name_from_input i1 ++ ":1",
              n1 ++ "_quantize_" ++ unique_node_name_from_input i1 ++ ":2") := by
      rw [alookup_append_of_none _ _ _ hm, alookup_cons_self]
    simp only [hd4, hl]

/-- Witness for C6: the first call for input x from the empty state emits the
subgraph; a second call for the same tensor identity written as x:0, with a
different namespace, dimension names and dtype, returns exactly the memoized
triple and leaves the state unchanged. -/
theorem c6_witness :
    eightbitize_input_to_node false "p" "x" "rd" "rr" DType.quint8 emptyQState = .ok c6First ∧
    eightbitize_input_to_node true "p2" "x:0" "rd2" "rr2" DType.qint8 c6First.2 = .ok c6First := by
  have h1 : eightbitize_input_to_node false "p" "x" "rd" "rr" DType.quint8 emptyQState = .ok c6First := by
    rfl
  exact ⟨h1, c6_one_subgraph_per_identity false true "p" "p2" "x" "x:0" "rd" "rd2" "rr" "rr2"
    DType.quint8 DType.qint8 emptyQState c6First rfl h1⟩

/-- Counterexample to C5: with per-channel off, the Requantize epilogue is
emitted with a ReLU6-terminated chain, yet the RequantizationRange node
carries no clip_value_max attribute at all (neither 6.0 nor 1e30). -/
theorem c5_counterexample :
    (add_quantize_down_nodes false "n" "q" DType.quint8 true emptyQState).map
      (fun p => p.2.output_graph.map (fun nd => (nd.op, lookupAttr nd "clip_value_max"))) =
    .ok [("RequantizationRange", none), ("Requantize", none)] := by
  rfl

/-- C5 amended: whenever the Requantize epilogue is emitted, the range
discovery node precedes the Requantize node in the output graph, and it
carries a clip_value_max attribute only in the per-channel variant, 6.0 when
the fused chain ends in ReLU6 and 1e30 otherwise; the per-tensor variant has
no clip_value_max attribute. -/
theorem c5_requantize_clip (per_channel : Bool) (orig qon : String) (rt : DType)
    (is_relu6 : Bool) (st : QState) (nm : String) (st2 : QState)
    (h : add_quantize_down_nodes per_channel orig qon rt is_relu6 st = .ok (nm, st2)) :
    nm = orig ++ "_eightbit_requantize" ∧
    st2.output_graph = st.output_graph ++
      [requantRangeNode per_channel orig qon is_relu6,
       requantizeDownNode per_channel orig qon rt] ∧
    lookupAttr (requantRangeNode per_channel orig qon is_relu6) "clip_value_max" =
      (if per_channel then some (AttrValue.f (if is_relu6 then 6 else 10 ^ 30)) else none) := by
  simp only [add_quantize_down_nodes] at h
  obtain ⟨st1, h1, h⟩ := exceptBindOk _ _ _ h
  obtain ⟨stB, h2, h⟩ := exceptBindOk _ _ _ h
  simp only [Except.ok.injEq, Prod.mk.injEq] at h
  obtain ⟨hnm, hst⟩ := h
  have e1 := add_output_graph_node_ok _ _ _ h1
  have e2 := add_output_graph_node_ok _ _ _ h2
  refine ⟨hnm.symm, ?_, ?_⟩
  · rw [← hst, e2, e1]
    simp [List.append_assoc]
  · cases per_channel with
    | false => rfl
    | true => cases is_relu6 with
      | false => rfl
      | true => rfl

/-- Witness for C5 amended at a concrete per-channel ReLU6 emission: the
range node carries clip_value_max 6.0. -/
theorem c5_witness :
    add_quantize_down_nodes true "n" "q" DType.quint8 true emptyQState =
      .ok ("n_eightbit_requantize",
        { output_graph := [requantRangeNode true "n" "q" true,
                           requantizeDownNode true "n" "q" DType.quint8],
          output_node_maps := [("n_eightbit_requant_range", requantRangeNode true "n" "q" true),
                               ("n_eightbit_requantize", requantizeDownNode true "n" "q" DType.quint8)],
          quantized_node_dict := [] }) ∧
    lookupAttr (requantRangeNode true "n" "q" true) "clip_value_max" = some (AttrValue.f 6) := by
  have h : add_quantize_down_nodes true "n" "q" DType.quint8 true emptyQState =
      .ok ("n_eightbit_requantize",
        { output_graph := [requantRangeNode true "n" "q" true,
                           requantizeDownNode true "n" "q" DType.quint8],
          output_node_maps := [("n_eightbit_requant_range", requantRangeNode true "n" "q" true),
                               ("n_eightbit_requantize", requantizeDownNode true "n" "q" DType.quint8)],
          quantized_node_dict := [] }) := by rfl
  exact ⟨h, ((c5_requantize_clip true "n" "q" DType.quint8 true emptyQState _ _ h).2.2).trans (by rfl)⟩

/-- Counterexample to C3: a MatMul anchor whose float input w is not in the
output-node registry and has no preceding ReLU receives qint8, although the
claim's priority order (anchor op MatMul implies unsigned 8-bit) demands
quint8. -/
theorem c3_counterexample :
    (alookup c3Map "mm").map (fun i => i.node.op) = some "MatMul" ∧
    find_relu_node c3Map 5 (create_node "MatMul" "mm" ["w"]) = .ok false ∧
    alookup ([] : List (String × NodeDef)) (node_name_from_input "w") = none ∧
    prologueDtype 5 c3Map [] "mm" "w" = .ok DType.qint8 ∧
    DType.qint8 ≠ DType.quint8 := by
  exact ⟨rfl, rfl, rfl, rfl, by decide⟩

/-- C3 amended: the dtype chosen for an input's QuantizeV2 node is the
inherited dtype when the producer is registered as an emitted Dequantize;
else unsigned 8-bit when the activation lookback on the anchor finds a ReLU;
else unsigned 8-bit when the producer is registered (under any op) and the
anchor's op is MatMul; else signed 8-bit.  For an unregistered producer the
MatMul rule does not apply. -/
theorem c3_prologue_dtype (fuel : Nat) (mapping : List (String × NodeInfo))
    (onm : List (String × NodeDef)) (anchorName inp : String) (anchorInfo : NodeInfo) (b : Bool)
    (ha : alookup mapping anchorName = some anchorInfo)
    (hr : find_relu_node mapping fuel anchorInfo.node = .ok b) :
    prologueDtype fuel mapping onm anchorName inp =
      .ok (prologueDtypeAmended onm anchorInfo.node b inp) := by
  simp only [prologueDtype, prologueDtypeAmended, ha]
  cases he : alookup onm (node_name_from_input inp) with
  | some emitted =>
    by_cases hd : emitted.op = "Dequantize"
    · simp [hd]
    · simp only [hd, if_false, hr]
      cases b with
      | false =>
        by_cases hmm : anchorInfo.node.op = "MatMul" <;>
          simp [hmm, Bind.bind, Except.bind]
      | true => simp [Bind.bind, Except.bind]
  | none =>
    simp [hr, Bind.bind, Except.bind]

/-- Witness for C3 amended: with the producer w registered as an emitted
Dequantize of dtype quint8 and no ReLU lookback hit, the chosen dtype is the
inherited quint8. -/
theorem c3_witness :
    alookup c3Map "mm" = some { node := create_node "MatMul" "mm" ["w"], output := [] } ∧
    find_relu_node c3Map 5 (create_node "MatMul" "mm" ["w"]) = .ok false ∧
    prologueDtype 5 c3Map c3Onm "mm" "w" =
      .ok (prologueDtypeAmended c3Onm (create_node "MatMul" "mm" ["w"]) false "w") ∧
    prologueDtypeAmended c3Onm (create_node "MatMul" "mm" ["w"]) false "w" = DType.quint8 := by
  exact ⟨rfl, rfl, c3_prologue_dtype 5 c3Map c3Onm "mm" "w" _ false rfl rfl, rfl⟩

lemma alookup_mem {α : Type} (l : List (String × α)) (k : String) (v : α)
    (h : alookup l k = some v) : (k, v) ∈ l := by
  induction l with
  | nil => simp [alookup] at h
  | cons p rest ih =>
    obtain ⟨k1, v1⟩ := p
    by_cases hk : k1 = k
    · subst hk
      rw [alookup_cons_self] at h
      simp only [Option.some.injEq] at h
      subst h
      simp
    · simp only [alookup, if_neg hk] at h
      exact List.mem_cons_of_mem _ (ih h)

/-- Counterexample to C2: in c2Graph the anchor A has two consumers, yet the
matcher returns a matched chain at A for the single-element rule MaxPool
instead of the no-match result. -/
theorem c2_counterexample :
    (parseGraph c2Graph).map (fun m => (alookup m "A").map (fun i => i.output.length)) =
      .ok (some 2) ∧
    is_match_on_graph 3 c2Graph [["MaxPool"]] true "A" = .ok (some (["MaxPool"], ["A"])) := by
  exact ⟨rfl, rfl⟩

lemma exceptBindOkE {α β : Type} (e : Except String α) (f : α → Except String β) (b : β)
    (h : Except.bind e f = .ok b) : ∃ a, e = .ok a ∧ f a = .ok b := by
  cases e with
  | error er => simp [Except.bind] at h
  | ok a => exact ⟨a, rfl, by simpa [Except.bind] using h⟩

lemma tryRule_shared (mapping : List (String × NodeInfo)) (e : String) (rest : List String)
    (cur : String) (acc : List String) (ns : List String)
    (hc : ∀ info, alookup mapping cur = some info → info.output.length > 1)
    (h : tryRule mapping (e :: rest) cur acc = .ok (some ns)) : False := by
  rw [tryRule] at h
  cases hm : alookup mapping cur with
  | none => simp [hm] at h
  | some info =>
    simp only [hm] at h
    have hlen := hc info hm
    cases ho : info.output with
    | nil => rw [ho] at hlen; simp at hlen
    | cons nxt tail =>
      simp only [ho] at h
      rw [ho] at hlen
      cases hn : alookup mapping nxt with
      | none => simp [hn] at h
      | some nInfo =>
        simp only [hn] at h
        obtain ⟨addq, _, h⟩ := exceptBindOkE _ _ _ h
        rw [if_neg (fun hcond => hcond.2.1 hlen)] at h
        simp at h

lemma tryRulesLoop_shared (mapping : List (String × NodeInfo)) (v name : String)
    (rules : List (List String)) (r ns : List String)
    (hc : ∀ info, alookup mapping name = some info → info.output.length > 1)
    (h : tryRulesLoop mapping v name rules = .ok (some (r, ns))) :
    r.length = 1 ∧ ns.length = 1 := by
  induction rules with
  | nil => simp [tryRulesLoop] at h
  | cons rr rest ih =>
    cases rr with
    | nil => simp [tryRulesLoop] at h
    | cons hh tt =>
      rw [tryRulesLoop] at h
      by_cases hv : hh ≠ v
      · rw [if_pos hv] at h
        exact ih h
      · rw [if_neg hv] at h
        obtain ⟨res, hres, h⟩ := exceptBindOk _ _ _ h
        cases res with
        | none => exact ih (by simpa using h)
        | some ns0 =>
          simp only [Except.ok.injEq, Option.some.injEq, Prod.mk.injEq] at h
          obtain ⟨hr, hns⟩ := h
          cases tt with
          | nil =>
            rw [tryRule] at hres
            simp only [Except.ok.injEq, Option.some.injEq] at hres
            subst hres
            subst hr
            subst hns
            exact ⟨rfl, rfl⟩
          | cons e tt2 =>
            exact absurd hres (fun hres => tryRule_shared mapping e tt2 name [name] ns0 hc hres)

lemma isMatchScan_shared (fuel : Nat) (mapping : List (String × NodeInfo))
    (patterns : List (List String)) (s8 : Bool) (start : String)
    (hk : ∀ p ∈ mapping, p.1 = p.2.node.name)
    (hc : ∀ p ∈ mapping, p.2.node.name = start → p.2.output.length > 1)
    (entries : List (String × NodeInfo)) (hsub : ∀ p ∈ entries, p ∈ mapping) :
    ∀ r ns, isMatchScan fuel mapping patterns s8 start entries = .ok (some (r, ns)) →
      r.length = 1 ∧ ns.length = 1 := by
  induction entries with
  | nil => intro r ns h; simp [isMatchScan] at h
  | cons p rest ih =>
    intro r ns h
    obtain ⟨name, info⟩ := p
    rw [isMatchScan] at h
    have hsubr : ∀ q ∈ rest, q ∈ mapping := fun q hq => hsub q (by simp [hq])
    by_cases hpe : patterns.any (fun r => r.isEmpty) = true
    · rw [if_pos hpe] at h
      simp at h
    · rw [if_neg hpe] at h
      by_cases hhead : patterns.any (fun r => r.head? == some info.node.op) = true
      · rw [if_pos hhead] at h
        by_cases hname : info.node.name ≠ start
        · rw [if_pos hname] at h
          exact ih hsubr r ns h
        · rw [if_neg hname] at h
          push_neg at hname
          have hkeq : name = start := by
            have hq := hk (name, info) (hsub _ (by simp))
            simp only at hq
            rw [hq, hname]
          have hcc : ∀ info0, alookup mapping name = some info0 → info0.output.length > 1 := by
            intro info0 hl
            have hmem := alookup_mem mapping name info0 hl
            have hq := hk (name, info0) hmem
            simp only at hq
            exact hc (name, info0) hmem (by rw [← hq, hkeq])
          by_cases hconv : (info.node.op = "Conv2D" ∨ info.node.op = "DepthwiseConv2dNative") ∧ s8 = false
          · rw [if_pos hconv] at h
            obtain ⟨b, _, h⟩ := exceptBindOk _ _ _ h
            by_cases hbt : ¬ (b = true)
            · rw [if_pos hbt] at h
              exact ih hsubr r ns h
            · rw [if_neg hbt] at h
              obtain ⟨res, hres, h⟩ := exceptBindOk _ _ _ h
              cases res with
              | none => exact ih hsubr r ns (by simpa using h)
              | some x =>
                simp only [Except.ok.injEq, Option.some.injEq] at h
                subst h
                exact tryRulesLoop_shared mapping info.node.op name patterns r ns hcc hres
          · rw [if_neg hconv] at h
            obtain ⟨res, hres, h⟩ := exceptBindOk _ _ _ h
            cases res with
            | none => exact ih hsubr r ns (by simpa using h)
            | some x =>
              simp only [Except.ok.injEq, Option.some.injEq] at h
              subst h
              exact tryRulesLoop_shared mapping info.node.op name patterns r ns hcc hres
      · rw [if_neg hhead] at h
        exact ih hsubr r ns h

/-- C2 amended: when every index entry named like the start node has more
than one consumer, any chain the matcher returns is a single node matched by
a single-element rule; no rule of two or more elements ever yields a match at
a shared-output anchor, but a single-element rule still matches the anchor
alone, contrary to the claim's universal no-match statement. -/
theorem c2_shared_output_no_fusion (fuel : Nat) (mapping : List (String × NodeInfo))
    (patterns : List (List String)) (s8 : Bool) (start : String) (r ns : List String)
    (hk : ∀ p ∈ mapping, p.1 = p.2.node.name)
    (hc : ∀ p ∈ mapping, p.2.node.name = start → p.2.output.length > 1)
    (h : is_match fuel mapping patterns s8 start = .ok (some (r, ns))) :
    r.length = 1 ∧ ns.length = 1 :=
  isMatchScan_shared fuel mapping patterns s8 start hk hc mapping (fun _ hp => hp) r ns h

/-- Witness for C2 amended on the index of c2Graph: the anchor A has two
consumers, the matcher still matches the single-element rule, and the matched
chain has length one. -/
theorem c2_witness :
    (∀ p ∈ c2WitnessMap, p.1 = p.2.node.name) ∧
    (∀ p ∈ c2WitnessMap, p.2.node.name = "A" → p.2.output.length > 1) ∧
    is_match 3 c2WitnessMap [["MaxPool"]] true "A" = .ok (some (["MaxPool"], ["A"])) ∧
    (["MaxPool"].length = 1 ∧ ["A"].length = 1) := by
  refine ⟨by decide, by decide, rfl, ?_⟩
  exact c2_shared_output_no_fusion 3 c2WitnessMap [["MaxPool"]] true "A" ["MaxPool"] ["A"]
    (by decide) (by decide) rfl

lemma addAllOutput_ok (maps : List (String × NodeDef)) (acc ns : List NodeDef) (r : List NodeDef)
    (h : addAllOutput maps acc ns = .ok r) : r = acc ++ ns := by
  induction ns generalizing maps acc with
  | nil =>
    simp only [addAllOutput, Except.ok.injEq] at h
    simp [← h]
  | cons n rest ih =>
    rw [addAllOutput] at h
    by_cases hd : (alookup maps n.name).isSome
    · rw [if_pos hd] at h
      simp at h
    · rw [if_neg hd] at h
      have := ih _ _ h
      simp [this]

lemma applyRename_miss (ren : List (String × String)) (n : NodeDef)
    (h : ∀ i ∈ n.input, alookup ren (ensure_tensor_name_has_port i) = none) :
    applyRename ren n = n := by
  unfold applyRename
  have hmap : n.input.map (fun i =>
      match alookup ren (ensure_tensor_name_has_port i) with
      | some v => v
      | none => i) = n.input := by
    calc n.input.map (fun i =>
        match alookup ren (ensure_tensor_name_has_port i) with
        | some v => v
        | none => i)
        = n.input.map (fun i => i) := List.map_congr_left (fun i hi => by rw [h i hi])
      _ = n.input := by simp
  rw [hmap]

/-- Counterexample to C4: running the eliminator on c4Graph changes the input
graph's nodes in place (the consumer's input list is rewired), so the input
graph after the pass differs from the original. -/
theorem c4_counterexample :
    (remove_redundant_quantization [] c4Graph).map (fun p => decide (p.2 = c4Graph)) =
      .ok false := by
  rfl

/-- C4 amended: the eliminator returns a freshly built output graph, but its
rewiring is applied in place to the input graph's nodes, so after the pass
the input graph's nodes coincide with the output graph's nodes; the input
graph is left unchanged whenever the recorded rewires match no node input,
in particular when the pass records no rewire at all. -/
theorem c4_fresh_output_graph (m0 : List (String × NodeDef)) (g : GraphDef)
    (out post : GraphDef)
    (h : remove_redundant_quantization m0 g = .ok (out, post)) :
    out = post ∧
    ∀ nm ren, create_nodes_map g.node [] = .ok nm →
      computeInputsToRename nm g.node = .ok ren →
      (∀ n ∈ g.node, ∀ i ∈ n.input, alookup ren (ensure_tensor_name_has_port i) = none) →
      out = g ∧ post = g := by
  simp only [remove_redundant_quantization] at h
  obtain ⟨nm0, h1, h⟩ := exceptBindOk _ _ _ h
  obtain ⟨ren0, h2, h⟩ := exceptBindOk _ _ _ h
  obtain ⟨outN, h3, h⟩ := exceptBindOk _ _ _ h
  simp only [Except.ok.injEq, Prod.mk.injEq] at h
  obtain ⟨hout, hpost⟩ := h
  have houtN := addAllOutput_ok _ _ _ _ h3
  simp only [List.nil_append] at houtN
  constructor
  · rw [← hout, ← hpost, houtN]
  · intro nm ren hnm hren hmiss
    rw [h1] at hnm
    simp only [Except.ok.injEq] at hnm
    subst hnm
    rw [h2] at hren
    simp only [Except.ok.injEq] at hren
    subst hren
    have hmapid : g.node.map (applyRename ren0) = g.node := by
      calc g.node.map (applyRename ren0) = g.node.map (fun n => n) :=
        List.map_congr_left (fun n hn => applyRename_miss ren0 n (hmiss n hn))
        _ = g.node := by simp
    constructor
    · rw [← hout, houtN, hmapid]
    · rw [← hpost, hmapid]

/-- Witness for C4 amended on a one-node graph: the pass records no rewire,
so the recorded rewires match no input and the graph comes back unchanged,
with output and post-state equal. -/
theorem c4_witness :
    remove_redundant_quantization [] trivGraph = .ok (trivGraph, trivGraph) ∧
    create_nodes_map trivGraph.node [] = .ok [("a", create_node "Const" "a" [])] ∧
    computeInputsToRename [("a", create_node "Const" "a" [])] trivGraph.node = .ok [] ∧
    (trivGraph = trivGraph ∧ trivGraph = trivGraph) := by
  have h : remove_redundant_quantization [] trivGraph = .ok (trivGraph, trivGraph) := by rfl
  refine ⟨h, rfl, rfl, ?_⟩
  exact (c4_fresh_output_graph [] trivGraph trivGraph trivGraph h).2
    [("a", create_node "Const" "a" [])] [] rfl rfl (by decide)

/-- Counterexample to C9: on the chained c9Graph the first run rewires and
the second run, applied to the first run's output, changes the graph again
(the consumer's input moves from q2 to s2), so the eliminator is not
idempotent. -/
theorem c9_counterexample :
    ((remove_redundant_quantization [] c9Graph).bind
      (fun p => (remove_redundant_quantization [] p.1).map (fun q => decide (q.1 = p.1)))) =
      .ok false := by
  rfl

/-- C9 amended: a run of the eliminator (in particular a second run on the
output of a first one) returns its input unchanged exactly when the rewires
it records touch no node input; when a recorded rewire target is itself an
eliminated Quantize output (the chained pattern of c9Graph), the second run
changes the graph further. -/
theorem c9_second_run_identity (m0 : List (String × NodeDef)) (g : GraphDef)
    (nm : List (String × NodeDef)) (ren : List (String × String)) (out post : GraphDef)
    (hnm : create_nodes_map g.node [] = .ok nm)
    (hren : computeInputsToRename nm g.node = .ok ren)
    (hmiss : ∀ n ∈ g.node, ∀ i ∈ n.input, alookup ren (ensure_tensor_name_has_port i) = none)
    (h : remove_redundant_quantization m0 g = .ok (out, post)) :
    out = g ∧ post = g := by
  simp only [remove_redundant_quantization] at h
  obtain ⟨nm0, h1, h⟩ := exceptBindOk _ _ _ h
  obtain ⟨ren0, h2, h⟩ := exceptBindOk _ _ _ h
  obtain ⟨outN, h3, h⟩ := exceptBindOk _ _ _ h
  simp only [Except.ok.injEq, Prod.mk.injEq] at h
  obtain ⟨hout, hpost⟩ := h
  rw [h1] at hnm
  simp only [Except.ok.injEq] at hnm
  subst hnm
  rw [h2] at hren
  simp only [Except.ok.injEq] at hren
  subst hren
  have houtN := addAllOutput_ok _ _ _ _ h3
  simp only [List.nil_append] at houtN
  have hmapid : g.node.map (applyRename ren0) = g.node := by
    calc g.node.map (applyRename ren0) = g.node.map (fun n => n) :=
      List.map_congr_left (fun n hn => applyRename_miss ren0 n (hmiss n hn))
      _ = g.node := by simp
  constructor
  · rw [← hout, houtN, hmapid]
  · rw [← hpost, hmapid]

/-- Witness for C9 amended on a one-node graph: the recorded rewires touch no
input and the run returns the graph unchanged. -/
theorem c9_witness :
    create_nodes_map trivGraph.node [] = .ok [("a", create_node "Const" "a" [])] ∧
    computeInputsToRename [("a", create_node "Const" "a" [])] trivGraph.node = .ok [] ∧
    remove_redundant_quantization [] trivGraph = .ok (trivGraph, trivGraph) ∧
    (trivGraph = trivGraph ∧ trivGraph = trivGraph) := by
  refine ⟨rfl, rfl, by rfl, ?_⟩
  exact c9_second_run_identity [] trivGraph [("a", create_node "Const" "a" [])] []
    trivGraph trivGraph rfl rfl (by decide) (by rfl)

/-- C1: for a Quantize/QuantizeV2 node whose first input resolves to a
Dequantize node of the same declared dtype and whose min/max inputs resolve
to nodes of the accepted kinds (Min or Dequantize for min, Max or Dequantize
for max), the eliminator records a rewire exactly when the min and max inputs
trace to the same source per the claim (directly, or through the one Concat
indirection), and the recorded mapping sends the Quantize node's value output
to the Dequantize node's first input's source and its min/max outputs (slots
1 and 2) to the Dequantize node's second and third inputs.  The
well-formedness hypothesis hwf supplies the lookups the indirection needs so
that no python KeyError interrupts the scan. -/
theorem c1_redundant_rewire_iff
    (m : List (String × NodeDef)) (node dq minN maxN : NodeDef)
    (i0 i1 i2 : String) (is : List String)
    (d0 d1 d2 : String) (ds : List String)
    (mi0 xi0 : String) (mis xis : List String)
    (hop : node.op = "Quantize" ∨ node.op = "QuantizeV2")
    (hin : node.input = i0 :: i1 :: i2 :: is)
    (hdq : alookup m (node_name_from_input i0) = some dq)
    (hdqop : dq.op = "Dequantize")
    (hT : lookupAttr node "T" = lookupAttr dq "T")
    (hdqin : dq.input = d0 :: d1 :: d2 :: ds)
    (hmin : alookup m (node_name_from_input i1) = some minN)
    (hmax : alookup m (node_name_from_input i2) = some maxN)
    (hminop : minN.op = "Min" ∨ minN.op = "Dequantize")
    (hmaxop : maxN.op = "Max" ∨ maxN.op = "Dequantize")
    (hminin : minN.input = mi0 :: mis)
    (hmaxin : maxN.input = xi0 :: xis)
    (hwf : node_name_from_input mi0 ≠ node_name_from_input xi0 →
      ∃ c, alookup m (node_name_from_input mi0) = some c ∧
        (c.op = "Concat" →
          ∃ s1, c.input.get? 1 = some s1 ∧
            ∃ m2, alookup m (node_name_from_input s1) = some m2 ∧
              (m2.op = "Min" → m2.input ≠ []))) :
    redundantEntriesForNode m node =
      .ok (if sameSourceSpec m minN maxN then
             [(ensure_tensor_name_has_port node.name, node_name_from_input d0),
              (node.name ++ ":1", d1), (node.name ++ ":2", d2)]
           else []) := by
  rw [redundantEntriesForNode, if_pos hop]
  simp only [hin]
  simp only [hdq]
  rw [if_neg (not_not_intro hdqop), if_neg (not_not_intro hT)]
  simp only [hmin, hmax]
  rw [if_neg (not_not_intro ⟨hminop, hmaxop⟩)]
  simp only [hminin, hmaxin, sameSourceSpec, List.head?]
  by_cases hsame : node_name_from_input mi0 = node_name_from_input xi0
  · rw [if_pos hsame, if_pos hsame]
    simp only [hdqin]
    rfl
  · rw [if_neg hsame, if_neg hsame]
    obtain ⟨c, hcl, hcc⟩ := hwf hsame
    simp only [hcl]
    by_cases hco : c.op = "Concat"
    · obtain ⟨s1, hs1, m2, hm2, hm2i⟩ := hcc hco
      rw [if_pos hco, if_pos hco]
      simp only [hs1, hm2]
      by_cases hmo : m2.op = "Min"
      · rw [if_pos hmo, if_pos hmo]
        cases hm2in : m2.input with
        | nil => exact absurd hm2in (hm2i hmo)
        | cons h0 hs0 =>
          simp only [hm2in, List.head?]
          by_cases heq : node_name_from_input h0 = node_name_from_input xi0
          · have hb : decide (node_name_from_input h0 = node_name_from_input xi0) = true :=
              decide_eq_true heq
            rw [if_neg (not_not_intro hb), if_pos hb]
            simp only [hdqin]
          · have hb : decide (node_name_from_input h0 = node_name_from_input xi0) = false :=
              decide_eq_false heq
            rw [if_pos (by simp [hb]), if_neg (by simp [hb])]
      · rw [if_neg hmo, if_neg hmo]
        rfl
    · rw [if_neg hco, if_neg hco]
      rfl

/-- Witness for C1 on the concrete direct-trace instance c1Map: the rewire is
recorded and maps q:0 to the Dequantize source s and q:1, q:2 to the
Dequantize node's min and max inputs. -/
theorem c1_witness :
    (c1Node.op = "Quantize" ∨ c1Node.op = "QuantizeV2") ∧
    sameSourceSpec c1Map (create_node "Min" "mn" ["s"]) (create_node "Max" "mx" ["s"]) = true ∧
    redundantEntriesForNode c1Map c1Node =
      .ok [("q:0", "s"), ("q:1", "a"), ("q:2", "b")] := by
  have h := c1_redundant_rewire_iff c1Map c1Node
    (set_attr_dtype (create_node "Dequantize" "dq" ["s", "a", "b"]) "T" DType.qint8)
    (create_node "Min" "mn" ["s"]) (create_node "Max" "mx" ["s"])
    "dq" "mn" "mx" [] "s" "a" "b" [] "s" "s" [] []
    (Or.inr rfl) rfl rfl rfl rfl rfl rfl rfl (Or.inl rfl) (Or.inl rfl) rfl rfl
    (fun hne => absurd rfl hne)
  refine ⟨Or.inr rfl, rfl, ?_⟩
  rw [h]
  rfl
